import Mathlib

/-!
# go-rejson: the Handler dispatcher and its client selector

A shallow embedding of `rejson.go` (the `Handler` type, the `ReJSON` interface and the
twenty forwarding methods) and of `set_client.go` (`SetClientInactive`, `SetGoRedisClient`).

Modelling conventions.

* A Go `interface{}` value is `Option T.Value` (`none` is the nil interface); a Go `error`
  is `Option T.Error` (`none` is the nil error); a variadic parameter is a `List`.
* Go `int` arguments are only passed through, never computed with, so they are `Int`.
* A backend method is a state transformer on a world `W` (the connection, the server, a
  call log, ...): it returns its `(res, err)` pair and the new world.
* A `*Handler` receiver is the pair of the pointed-to struct and the world, `State T W`;
  every method returns the state after the call.
* Calling a method on a nil interface panics in Go; that is `Outcome.nilDeref`.
* In `State T W` the struct of the Handler stands beside the world of the backend. A
  backend that holds the `*Handler` can also write the struct while it is called; for that
  the struct is kept inside the memory the backend works on (`Handler.invokeInMemory`),
  and the `r` of a state is then the snapshot of the fields the method read on entry.
* The packages `rjs` and `clients` are imported by the two source files but are not part
  of them: what the source uses from them is collected in `Imports`.
-/

namespace Rejson

/-- The Go types that the two source files only name: `context.Context`, the dynamic
values an `interface{}` may hold, `error` values, `rjs.SetOption`, `rjs.GetOption`,
`rjs.DebugSubCommand` and `redis.UniversalClient`. -/
structure Sig where
  Context : Type
  Value : Type
  Error : Type
  SetOption : Type
  GetOption : Type
  DebugSubCommand : Type
  UniversalClient : Type

/-- The pair `(res interface{}, err error)` every method of the interface returns. -/
abbrev Reply (T : Sig) : Type := Option T.Value × Option T.Error

/-- The interface `ReJSON` (rejson.go, lines 18-58): one method per command. Each method
acts on the backend world `W` and returns its `(res, err)` pair with the new world. -/
structure ReJSON (T : Sig) (W : Type) where
  JSONSet : T.Context → String → String → Option T.Value → List T.SetOption → W → Reply T × W
  JSONGet : T.Context → String → String → List T.GetOption → W → Reply T × W
  JSONMGet : T.Context → String → List String → W → Reply T × W
  JSONDel : T.Context → String → String → W → Reply T × W
  JSONType : T.Context → String → String → W → Reply T × W
  JSONNumIncrBy : T.Context → String → String → Int → W → Reply T × W
  JSONNumMultBy : T.Context → String → String → Int → W → Reply T × W
  JSONStrAppend : T.Context → String → String → String → W → Reply T × W
  JSONStrLen : T.Context → String → String → W → Reply T × W
  JSONArrAppend : T.Context → String → String → List (Option T.Value) → W → Reply T × W
  JSONArrLen : T.Context → String → String → W → Reply T × W
  JSONArrPop : T.Context → String → String → Int → W → Reply T × W
  JSONArrIndex : T.Context → String → String → Option T.Value → List Int → W → Reply T × W
  JSONArrTrim : T.Context → String → String → Int → Int → W → Reply T × W
  JSONArrInsert : T.Context → String → String → Int → List (Option T.Value) → W → Reply T × W
  JSONObjKeys : T.Context → String → String → W → Reply T × W
  JSONObjLen : T.Context → String → String → W → Reply T × W
  JSONDebug : T.Context → T.DebugSubCommand → String → String → W → Reply T × W
  JSONForget : T.Context → String → String → W → Reply T × W
  JSONResp : T.Context → String → String → W → Reply T × W

/-- The struct `Handler` (rejson.go, lines 8-11); a nil `implementation` is `none`. -/
structure Handler (T : Sig) (W : Type) where
  clientName : String
  implementation : Option (ReJSON T W)

/-- What the source files use from the packages `rjs` and `clients`, which are not among
them: the constant `rjs.ClientInactive`, the error value `rjs.ErrNoClientSet` and the
constructor `clients.NewGoRedisClient`. They are parameters of the development. -/
structure Imports (T : Sig) (W : Type) where
  ClientInactive : String
  ErrNoClientSet : Option T.Error
  NewGoRedisClient : T.UniversalClient → ReJSON T W

/-- The memory a method with receiver `r *Handler` works on: the struct `r` points to and
the world of the backend. -/
structure State (T : Sig) (W : Type) where
  r : Handler T W
  world : W

/-- How a call of a Handler method ends: it returns `(res, err)`, or it panics because a
method was called on the nil interface. -/
inductive Outcome (T : Sig) where
  | ret (res : Option T.Value) (err : Option T.Error)
  | nilDeref

/-- The Go method call `r.implementation.M(args)`: a nil interface panics and nothing
else happens; otherwise the method `m` of the backend runs once on the world. -/
def callImplementation {T : Sig} {W : Type} (s : State T W)
    (m : ReJSON T W → W → Reply T × W) : Outcome T × State T W :=
  match s.r.implementation with
  | none => (Outcome.nilDeref, s)
  | some b => (Outcome.ret (m b s.world).1.1 (m b s.world).1.2, ⟨s.r, (m b s.world).2⟩)

/-- The function `NewReJSONHandler` (rejson.go, lines 13-15). -/
def NewReJSONHandler {T : Sig} {W : Type} (env : Imports T W) : Handler T W :=
  ⟨env.ClientInactive, none⟩

/-- The method `Handler.JSONSet` (rejson.go, lines 66-73). -/
def Handler.JSONSet {T : Sig} {W : Type} (env : Imports T W) (s : State T W)
    (ctx : T.Context) (key path : String) (obj : Option T.Value)
    (opts : List T.SetOption) : Outcome T × State T W :=
  if s.r.clientName = env.ClientInactive then (Outcome.ret none env.ErrNoClientSet, s)
  else callImplementation s (fun b => b.JSONSet ctx key path obj opts)

/-- The method `Handler.JSONGet` (rejson.go, lines 85-90). -/
def Handler.JSONGet {T : Sig} {W : Type} (env : Imports T W) (s : State T W)
    (ctx : T.Context) (key path : String) (opts : List T.GetOption) :
    Outcome T × State T W :=
  if s.r.clientName = env.ClientInactive then (Outcome.ret none env.ErrNoClientSet, s)
  else callImplementation s (fun b => b.JSONGet ctx key path opts)

/-- The method `Handler.JSONMGet` (rejson.go, lines 97-102). -/
def Handler.JSONMGet {T : Sig} {W : Type} (env : Imports T W) (s : State T W)
    (ctx : T.Context) (path : String) (keys : List String) : Outcome T × State T W :=
  if s.r.clientName = env.ClientInactive then (Outcome.ret none env.ErrNoClientSet, s)
  else callImplementation s (fun b => b.JSONMGet ctx path keys)

/-- The method `Handler.JSONDel` (rejson.go, lines 109-114). -/
def Handler.JSONDel {T : Sig} {W : Type} (env : Imports T W) (s : State T W)
    (ctx : T.Context) (key path : String) : Outcome T × State T W :=
  if s.r.clientName = env.ClientInactive then (Outcome.ret none env.ErrNoClientSet, s)
  else callImplementation s (fun b => b.JSONDel ctx key path)

/-- The method `Handler.JSONType` (rejson.go, lines 121-126). -/
def Handler.JSONType {T : Sig} {W : Type} (env : Imports T W) (s : State T W)
    (ctx : T.Context) (key path : String) : Outcome T × State T W :=
  if s.r.clientName = env.ClientInactive then (Outcome.ret none env.ErrNoClientSet, s)
  else callImplementation s (fun b => b.JSONType ctx key path)

/-- The method `Handler.JSONNumIncrBy` (rejson.go, lines 133-138). -/
def Handler.JSONNumIncrBy {T : Sig} {W : Type} (env : Imports T W) (s : State T W)
    (ctx : T.Context) (key path : String) (number : Int) : Outcome T × State T W :=
  if s.r.clientName = env.ClientInactive then (Outcome.ret none env.ErrNoClientSet, s)
  else callImplementation s (fun b => b.JSONNumIncrBy ctx key path number)

/-- The method `Handler.JSONNumMultBy` (rejson.go, lines 145-150). -/
def Handler.JSONNumMultBy {T : Sig} {W : Type} (env : Imports T W) (s : State T W)
    (ctx : T.Context) (key path : String) (number : Int) : Outcome T × State T W :=
  if s.r.clientName = env.ClientInactive then (Outcome.ret none env.ErrNoClientSet, s)
  else callImplementation s (fun b => b.JSONNumMultBy ctx key path number)

/-- The method `Handler.JSONStrAppend` (rejson.go, lines 157-162). -/
def Handler.JSONStrAppend {T : Sig} {W : Type} (env : Imports T W) (s : State T W)
    (ctx : T.Context) (key path jsonstring : String) : Outcome T × State T W :=
  if s.r.clientName = env.ClientInactive then (Outcome.ret none env.ErrNoClientSet, s)
  else callImplementation s (fun b => b.JSONStrAppend ctx key path jsonstring)

/-- The method `Handler.JSONStrLen` (rejson.go, lines 169-174). -/
def Handler.JSONStrLen {T : Sig} {W : Type} (env : Imports T W) (s : State T W)
    (ctx : T.Context) (key path : String) : Outcome T × State T W :=
  if s.r.clientName = env.ClientInactive then (Outcome.ret none env.ErrNoClientSet, s)
  else callImplementation s (fun b => b.JSONStrLen ctx key path)

/-- The method `Handler.JSONArrAppend` (rejson.go, lines 181-186). -/
def Handler.JSONArrAppend {T : Sig} {W : Type} (env : Imports T W) (s : State T W)
    (ctx : T.Context) (key path : String) (values : List (Option T.Value)) :
    Outcome T × State T W :=
  if s.r.clientName = env.ClientInactive then (Outcome.ret none env.ErrNoClientSet, s)
  else callImplementation s (fun b => b.JSONArrAppend ctx key path values)

/-- The method `Handler.JSONArrLen` (rejson.go, lines 193-198). -/
def Handler.JSONArrLen {T : Sig} {W : Type} (env : Imports T W) (s : State T W)
    (ctx : T.Context) (key path : String) : Outcome T × State T W :=
  if s.r.clientName = env.ClientInactive then (Outcome.ret none env.ErrNoClientSet, s)
  else callImplementation s (fun b => b.JSONArrLen ctx key path)

/-- The method `Handler.JSONArrPop` (rejson.go, lines 206-211). -/
def Handler.JSONArrPop {T : Sig} {W : Type} (env : Imports T W) (s : State T W)
    (ctx : T.Context) (key path : String) (index : Int) : Outcome T × State T W :=
  if s.r.clientName = env.ClientInactive then (Outcome.ret none env.ErrNoClientSet, s)
  else callImplementation s (fun b => b.JSONArrPop ctx key path index)

/-- The method `Handler.JSONArrIndex` (rejson.go, lines 218-225). -/
def Handler.JSONArrIndex {T : Sig} {W : Type} (env : Imports T W) (s : State T W)
    (ctx : T.Context) (key path : String) (jsonValue : Option T.Value)
    (optionalRange : List Int) : Outcome T × State T W :=
  if s.r.clientName = env.ClientInactive then (Outcome.ret none env.ErrNoClientSet, s)
  else callImplementation s (fun b => b.JSONArrIndex ctx key path jsonValue optionalRange)

/-- The method `Handler.JSONArrTrim` (rejson.go, lines 232-237). The source names the last
parameter `end`, a keyword here, so it is `stop`. -/
def Handler.JSONArrTrim {T : Sig} {W : Type} (env : Imports T W) (s : State T W)
    (ctx : T.Context) (key path : String) (start stop : Int) : Outcome T × State T W :=
  if s.r.clientName = env.ClientInactive then (Outcome.ret none env.ErrNoClientSet, s)
  else callImplementation s (fun b => b.JSONArrTrim ctx key path start stop)

/-- The method `Handler.JSONArrInsert` (rejson.go, lines 244-249). -/
def Handler.JSONArrInsert {T : Sig} {W : Type} (env : Imports T W) (s : State T W)
    (ctx : T.Context) (key path : String) (index : Int)
    (values : List (Option T.Value)) : Outcome T × State T W :=
  if s.r.clientName = env.ClientInactive then (Outcome.ret none env.ErrNoClientSet, s)
  else callImplementation s (fun b => b.JSONArrInsert ctx key path index values)

/-- The method `Handler.JSONObjKeys` (rejson.go, lines 256-261). -/
def Handler.JSONObjKeys {T : Sig} {W : Type} (env : Imports T W) (s : State T W)
    (ctx : T.Context) (key path : String) : Outcome T × State T W :=
  if s.r.clientName = env.ClientInactive then (Outcome.ret none env.ErrNoClientSet, s)
  else callImplementation s (fun b => b.JSONObjKeys ctx key path)

/-- The method `Handler.JSONObjLen` (rejson.go, lines 268-273). -/
def Handler.JSONObjLen {T : Sig} {W : Type} (env : Imports T W) (s : State T W)
    (ctx : T.Context) (key path : String) : Outcome T × State T W :=
  if s.r.clientName = env.ClientInactive then (Outcome.ret none env.ErrNoClientSet, s)
  else callImplementation s (fun b => b.JSONObjLen ctx key path)

/-- The method `Handler.JSONDebug` (rejson.go, lines 282-287). -/
def Handler.JSONDebug {T : Sig} {W : Type} (env : Imports T W) (s : State T W)
    (ctx : T.Context) (subCmd : T.DebugSubCommand) (key path : String) :
    Outcome T × State T W :=
  if s.r.clientName = env.ClientInactive then (Outcome.ret none env.ErrNoClientSet, s)
  else callImplementation s (fun b => b.JSONDebug ctx subCmd key path)

/-- The method `Handler.JSONForget` (rejson.go, lines 294-299). -/
def Handler.JSONForget {T : Sig} {W : Type} (env : Imports T W) (s : State T W)
    (ctx : T.Context) (key path : String) : Outcome T × State T W :=
  if s.r.clientName = env.ClientInactive then (Outcome.ret none env.ErrNoClientSet, s)
  else callImplementation s (fun b => b.JSONForget ctx key path)

/-- The method `Handler.JSONResp` (rejson.go, lines 306-311). -/
def Handler.JSONResp {T : Sig} {W : Type} (env : Imports T W) (s : State T W)
    (ctx : T.Context) (key path : String) : Outcome T × State T W :=
  if s.r.clientName = env.ClientInactive then (Outcome.ret none env.ErrNoClientSet, s)
  else callImplementation s (fun b => b.JSONResp ctx key path)

/-- The method `Handler.SetClientInactive` (set_client.go, lines 16-20): a fresh struct
`_t` is built with only `clientName` set, and both fields of `r` are overwritten from it. -/
def Handler.SetClientInactive {T : Sig} {W : Type} (env : Imports T W) (s : State T W) :
    State T W :=
  let _t : Handler T W := ⟨env.ClientInactive, none⟩
  ⟨⟨_t.clientName, _t.implementation⟩, s.world⟩

/-- The method `Handler.SetGoRedisClient` (set_client.go, lines 23-26). -/
def Handler.SetGoRedisClient {T : Sig} {W : Type} (env : Imports T W) (s : State T W)
    (conn : T.UniversalClient) : State T W :=
  ⟨⟨"goredis", some (env.NewGoRedisClient conn)⟩, s.world⟩

/-! ## The twenty operations as data

To speak of "every operation and every argument list" a call is reified: one constructor
per method of the interface, carrying the context and the arguments in source order. -/

/-- A call of one of the twenty methods, with its context and arguments. -/
inductive Call (T : Sig) where
  | JSONSet (ctx : T.Context) (key path : String) (obj : Option T.Value)
      (opts : List T.SetOption)
  | JSONGet (ctx : T.Context) (key path : String) (opts : List T.GetOption)
  | JSONMGet (ctx : T.Context) (path : String) (keys : List String)
  | JSONDel (ctx : T.Context) (key path : String)
  | JSONType (ctx : T.Context) (key path : String)
  | JSONNumIncrBy (ctx : T.Context) (key path : String) (number : Int)
  | JSONNumMultBy (ctx : T.Context) (key path : String) (number : Int)
  | JSONStrAppend (ctx : T.Context) (key path jsonstring : String)
  | JSONStrLen (ctx : T.Context) (key path : String)
  | JSONArrAppend (ctx : T.Context) (key path : String) (values : List (Option T.Value))
  | JSONArrLen (ctx : T.Context) (key path : String)
  | JSONArrPop (ctx : T.Context) (key path : String) (index : Int)
  | JSONArrIndex (ctx : T.Context) (key path : String) (jsonValue : Option T.Value)
      (optionalRange : List Int)
  | JSONArrTrim (ctx : T.Context) (key path : String) (start stop : Int)
  | JSONArrInsert (ctx : T.Context) (key path : String) (index : Int)
      (values : List (Option T.Value))
  | JSONObjKeys (ctx : T.Context) (key path : String)
  | JSONObjLen (ctx : T.Context) (key path : String)
  | JSONDebug (ctx : T.Context) (subCmd : T.DebugSubCommand) (key path : String)
  | JSONForget (ctx : T.Context) (key path : String)
  | JSONResp (ctx : T.Context) (key path : String)

/-- The call `c` made on the Handler: the method of `Handler` with the name of `c`. -/
def Handler.invoke {T : Sig} {W : Type} (env : Imports T W) (s : State T W) :
    Call T → Outcome T × State T W
  | Call.JSONSet ctx key path obj opts => Handler.JSONSet env s ctx key path obj opts
  | Call.JSONGet ctx key path opts => Handler.JSONGet env s ctx key path opts
  | Call.JSONMGet ctx path keys => Handler.JSONMGet env s ctx path keys
  | Call.JSONDel ctx key path => Handler.JSONDel env s ctx key path
  | Call.JSONType ctx key path => Handler.JSONType env s ctx key path
  | Call.JSONNumIncrBy ctx key path number => Handler.JSONNumIncrBy env s ctx key path number
  | Call.JSONNumMultBy ctx key path number => Handler.JSONNumMultBy env s ctx key path number
  | Call.JSONStrAppend ctx key path js => Handler.JSONStrAppend env s ctx key path js
  | Call.JSONStrLen ctx key path => Handler.JSONStrLen env s ctx key path
  | Call.JSONArrAppend ctx key path values => Handler.JSONArrAppend env s ctx key path values
  | Call.JSONArrLen ctx key path => Handler.JSONArrLen env s ctx key path
  | Call.JSONArrPop ctx key path index => Handler.JSONArrPop env s ctx key path index
  | Call.JSONArrIndex ctx key path v rg => Handler.JSONArrIndex env s ctx key path v rg
  | Call.JSONArrTrim ctx key path start stop => Handler.JSONArrTrim env s ctx key path start stop
  | Call.JSONArrInsert ctx key path index values =>
      Handler.JSONArrInsert env s ctx key path index values
  | Call.JSONObjKeys ctx key path => Handler.JSONObjKeys env s ctx key path
  | Call.JSONObjLen ctx key path => Handler.JSONObjLen env s ctx key path
  | Call.JSONDebug ctx subCmd key path => Handler.JSONDebug env s ctx subCmd key path
  | Call.JSONForget ctx key path => Handler.JSONForget env s ctx key path
  | Call.JSONResp ctx key path => Handler.JSONResp env s ctx key path

/-- The call `c` made on a backend: the method of the interface with the name of `c`. -/
def ReJSON.invoke {T : Sig} {W : Type} (b : ReJSON T W) : Call T → W → Reply T × W
  | Call.JSONSet ctx key path obj opts => b.JSONSet ctx key path obj opts
  | Call.JSONGet ctx key path opts => b.JSONGet ctx key path opts
  | Call.JSONMGet ctx path keys => b.JSONMGet ctx path keys
  | Call.JSONDel ctx key path => b.JSONDel ctx key path
  | Call.JSONType ctx key path => b.JSONType ctx key path
  | Call.JSONNumIncrBy ctx key path number => b.JSONNumIncrBy ctx key path number
  | Call.JSONNumMultBy ctx key path number => b.JSONNumMultBy ctx key path number
  | Call.JSONStrAppend ctx key path js => b.JSONStrAppend ctx key path js
  | Call.JSONStrLen ctx key path => b.JSONStrLen ctx key path
  | Call.JSONArrAppend ctx key path values => b.JSONArrAppend ctx key path values
  | Call.JSONArrLen ctx key path => b.JSONArrLen ctx key path
  | Call.JSONArrPop ctx key path index => b.JSONArrPop ctx key path index
  | Call.JSONArrIndex ctx key path v rg => b.JSONArrIndex ctx key path v rg
  | Call.JSONArrTrim ctx key path start stop => b.JSONArrTrim ctx key path start stop
  | Call.JSONArrInsert ctx key path index values => b.JSONArrInsert ctx key path index values
  | Call.JSONObjKeys ctx key path => b.JSONObjKeys ctx key path
  | Call.JSONObjLen ctx key path => b.JSONObjLen ctx key path
  | Call.JSONDebug ctx subCmd key path => b.JSONDebug ctx subCmd key path
  | Call.JSONForget ctx key path => b.JSONForget ctx key path
  | Call.JSONResp ctx key path => b.JSONResp ctx key path

/-- A recording stub backend. Its world is the log of the calls it received; each method
appends the call it is, with the arguments it got, and answers `reply` of that call. -/
def recorder {T : Sig} (reply : Call T → Reply T) : ReJSON T (List (Call T)) where
  JSONSet ctx key path obj opts log :=
    (reply (Call.JSONSet ctx key path obj opts), log ++ [Call.JSONSet ctx key path obj opts])
  JSONGet ctx key path opts log :=
    (reply (Call.JSONGet ctx key path opts), log ++ [Call.JSONGet ctx key path opts])
  JSONMGet ctx path keys log :=
    (reply (Call.JSONMGet ctx path keys), log ++ [Call.JSONMGet ctx path keys])
  JSONDel ctx key path log :=
    (reply (Call.JSONDel ctx key path), log ++ [Call.JSONDel ctx key path])
  JSONType ctx key path log :=
    (reply (Call.JSONType ctx key path), log ++ [Call.JSONType ctx key path])
  JSONNumIncrBy ctx key path n log :=
    (reply (Call.JSONNumIncrBy ctx key path n), log ++ [Call.JSONNumIncrBy ctx key path n])
  JSONNumMultBy ctx key path n log :=
    (reply (Call.JSONNumMultBy ctx key path n), log ++ [Call.JSONNumMultBy ctx key path n])
  JSONStrAppend ctx key path js log :=
    (reply (Call.JSONStrAppend ctx key path js), log ++ [Call.JSONStrAppend ctx key path js])
  JSONStrLen ctx key path log :=
    (reply (Call.JSONStrLen ctx key path), log ++ [Call.JSONStrLen ctx key path])
  JSONArrAppend ctx key path vs log :=
    (reply (Call.JSONArrAppend ctx key path vs), log ++ [Call.JSONArrAppend ctx key path vs])
  JSONArrLen ctx key path log :=
    (reply (Call.JSONArrLen ctx key path), log ++ [Call.JSONArrLen ctx key path])
  JSONArrPop ctx key path i log :=
    (reply (Call.JSONArrPop ctx key path i), log ++ [Call.JSONArrPop ctx key path i])
  JSONArrIndex ctx key path v rg log :=
    (reply (Call.JSONArrIndex ctx key path v rg), log ++ [Call.JSONArrIndex ctx key path v rg])
  JSONArrTrim ctx key path a z log :=
    (reply (Call.JSONArrTrim ctx key path a z), log ++ [Call.JSONArrTrim ctx key path a z])
  JSONArrInsert ctx key path i vs log :=
    (reply (Call.JSONArrInsert ctx key path i vs),
      log ++ [Call.JSONArrInsert ctx key path i vs])
  JSONObjKeys ctx key path log :=
    (reply (Call.JSONObjKeys ctx key path), log ++ [Call.JSONObjKeys ctx key path])
  JSONObjLen ctx key path log :=
    (reply (Call.JSONObjLen ctx key path), log ++ [Call.JSONObjLen ctx key path])
  JSONDebug ctx sub key path log :=
    (reply (Call.JSONDebug ctx sub key path), log ++ [Call.JSONDebug ctx sub key path])
  JSONForget ctx key path log :=
    (reply (Call.JSONForget ctx key path), log ++ [Call.JSONForget ctx key path])
  JSONResp ctx key path log :=
    (reply (Call.JSONResp ctx key path), log ++ [Call.JSONResp ctx key path])

/-! ## Sequences of uses of a Handler -/

/-- One use of a Handler by a caller: a setter of set_client.go or one of the twenty
operations. -/
inductive Action (T : Sig) where
  | SetClientInactive
  | SetGoRedisClient (conn : T.UniversalClient)
  | call (c : Call T)

/-- The state after one use; the value a call returns is dropped. -/
def Action.apply {T : Sig} {W : Type} (env : Imports T W) (s : State T W) :
    Action T → State T W
  | Action.SetClientInactive => Handler.SetClientInactive env s
  | Action.SetGoRedisClient conn => Handler.SetGoRedisClient env s conn
  | Action.call c => (Handler.invoke env s c).2

/-- The state after a finite sequence of uses, first to last. -/
def run {T : Sig} {W : Type} (env : Imports T W) (acts : List (Action T))
    (s : State T W) : State T W :=
  acts.foldl (Action.apply env) s

/-- The two states the specification names: inactive, and active with the backend made
for a connection. -/
inductive Phase (T : Sig) where
  | inactive
  | active (conn : T.UniversalClient)

/-- The transitions the specification names: attach leads to active from either state,
detach leads to inactive from either state, an operation changes nothing. -/
def Phase.next {T : Sig} : Phase T → Action T → Phase T
  | _, Action.SetClientInactive => Phase.inactive
  | _, Action.SetGoRedisClient conn => Phase.active conn
  | p, Action.call _ => p

/-- The Handler fields that stand for a state of the specification. -/
def Phase.handler {T : Sig} {W : Type} (env : Imports T W) : Phase T → Handler T W
  | Phase.inactive => ⟨env.ClientInactive, none⟩
  | Phase.active conn => ⟨"goredis", some (env.NewGoRedisClient conn)⟩

/-- The fields of the Handler made by `NewReJSONHandler()` after the uses `acts`. -/
def reached {T : Sig} {W : Type} (env : Imports T W) (acts : List (Action T)) (w : W) :
    Handler T W :=
  (run env acts ⟨NewReJSONHandler env, w⟩).r

/-- Concrete carriers: a unit context, strings for values, errors and options, numbered
connections. -/
abbrev exampleSig : Sig := ⟨Unit, String, String, String, String, String, Nat⟩

/-- A reply table for the recording stub: `"OK"` to JSONSet, an element to JSONArrPop, a
count to JSONDel, an error to JSONForget, nil to the rest. -/
def exampleReply : Call exampleSig → Reply exampleSig
  | Call.JSONSet _ _ _ _ _ => (some "OK", none)
  | Call.JSONArrPop _ _ _ _ => (some "3", none)
  | Call.JSONDel _ _ _ => (some "1", none)
  | Call.JSONForget _ _ _ => (none, some "ERR unknown command")
  | _ => (none, none)

/-- An instance of the imported names in which every connection gets the recording stub. -/
def exampleEnv : Imports exampleSig (List (Call exampleSig)) :=
  ⟨"inactive", some "no redis client is set", fun _ => recorder exampleReply⟩

/-- The zero value `Handler{}` of the struct: the empty name tag and a nil backend. -/
def zeroHandler {T : Sig} {W : Type} : Handler T W := ⟨"", none⟩

/-- A Handler with the name tag `"goredis"` that holds the recording stub; the log is empty. -/
def exampleActive : State exampleSig (List (Call exampleSig)) :=
  ⟨⟨"goredis", some (recorder exampleReply)⟩, []⟩

/-- A Handler with the name tag `"inactive"` that still holds the recording stub. -/
def exampleStale : State exampleSig (List (Call exampleSig)) :=
  ⟨⟨"inactive", some (recorder exampleReply)⟩, []⟩

/-- A stub backend that serves JSONForget by its own JSONDel. -/
def aliasBackend : ReJSON exampleSig (List (Call exampleSig)) :=
  { recorder exampleReply with JSONForget := (recorder exampleReply).JSONDel }

/-- A backend given by what it does on each call. -/
def backendOf {T : Sig} {M : Type} (f : Call T → M → Reply T × M) : ReJSON T M where
  JSONSet ctx key path obj opts := f (Call.JSONSet ctx key path obj opts)
  JSONGet ctx key path opts := f (Call.JSONGet ctx key path opts)
  JSONMGet ctx path keys := f (Call.JSONMGet ctx path keys)
  JSONDel ctx key path := f (Call.JSONDel ctx key path)
  JSONType ctx key path := f (Call.JSONType ctx key path)
  JSONNumIncrBy ctx key path n := f (Call.JSONNumIncrBy ctx key path n)
  JSONNumMultBy ctx key path n := f (Call.JSONNumMultBy ctx key path n)
  JSONStrAppend ctx key path js := f (Call.JSONStrAppend ctx key path js)
  JSONStrLen ctx key path := f (Call.JSONStrLen ctx key path)
  JSONArrAppend ctx key path vs := f (Call.JSONArrAppend ctx key path vs)
  JSONArrLen ctx key path := f (Call.JSONArrLen ctx key path)
  JSONArrPop ctx key path i := f (Call.JSONArrPop ctx key path i)
  JSONArrIndex ctx key path v rg := f (Call.JSONArrIndex ctx key path v rg)
  JSONArrTrim ctx key path a z := f (Call.JSONArrTrim ctx key path a z)
  JSONArrInsert ctx key path i vs := f (Call.JSONArrInsert ctx key path i vs)
  JSONObjKeys ctx key path := f (Call.JSONObjKeys ctx key path)
  JSONObjLen ctx key path := f (Call.JSONObjLen ctx key path)
  JSONDebug ctx sub key path := f (Call.JSONDebug ctx sub key path)
  JSONForget ctx key path := f (Call.JSONForget ctx key path)
  JSONResp ctx key path := f (Call.JSONResp ctx key path)

/-- An operation on a Handler whose name tag is `ClientInactive` takes the first branch. -/
theorem invoke_of_inactive {T : Sig} {W : Type} (env : Imports T W) (s : State T W)
    (c : Call T) (h : s.r.clientName = env.ClientInactive) :
    Handler.invoke env s c = (Outcome.ret none env.ErrNoClientSet, s) := by
  cases c <;>
    simp [Handler.invoke, Handler.JSONSet, Handler.JSONGet, Handler.JSONMGet, Handler.JSONDel,
      Handler.JSONType, Handler.JSONNumIncrBy, Handler.JSONNumMultBy, Handler.JSONStrAppend,
      Handler.JSONStrLen, Handler.JSONArrAppend, Handler.JSONArrLen, Handler.JSONArrPop,
      Handler.JSONArrIndex, Handler.JSONArrTrim, Handler.JSONArrInsert, Handler.JSONObjKeys,
      Handler.JSONObjLen, Handler.JSONDebug, Handler.JSONForget, Handler.JSONResp, h]

/-- An operation on a Handler with another name tag and the backend `b` is the method of
`b` with the same name, run once on the same arguments. -/
theorem invoke_of_active {T : Sig} {W : Type} (env : Imports T W) (s : State T W)
    (b : ReJSON T W) (c : Call T) (h : s.r.clientName ≠ env.ClientInactive)
    (hb : s.r.implementation = some b) :
    Handler.invoke env s c =
      (Outcome.ret (b.invoke c s.world).1.1 (b.invoke c s.world).1.2,
        ⟨s.r, (b.invoke c s.world).2⟩) := by
  cases c <;>
    simp [Handler.invoke, ReJSON.invoke, callImplementation, Handler.JSONSet, Handler.JSONGet,
      Handler.JSONMGet, Handler.JSONDel,
      Handler.JSONType, Handler.JSONNumIncrBy, Handler.JSONNumMultBy, Handler.JSONStrAppend,
      Handler.JSONStrLen, Handler.JSONArrAppend, Handler.JSONArrLen, Handler.JSONArrPop,
      Handler.JSONArrIndex, Handler.JSONArrTrim, Handler.JSONArrInsert, Handler.JSONObjKeys,
      Handler.JSONObjLen, Handler.JSONDebug, Handler.JSONForget, Handler.JSONResp, h, hb]

/-- An operation on a Handler with another name tag and a nil backend panics. -/
theorem invoke_of_nil {T : Sig} {W : Type} (env : Imports T W) (s : State T W)
    (c : Call T) (h : s.r.clientName ≠ env.ClientInactive)
    (hb : s.r.implementation = none) :
    Handler.invoke env s c = (Outcome.nilDeref, s) := by
  cases c <;>
    simp [Handler.invoke, callImplementation, Handler.JSONSet, Handler.JSONGet,
      Handler.JSONMGet, Handler.JSONDel,
      Handler.JSONType, Handler.JSONNumIncrBy, Handler.JSONNumMultBy, Handler.JSONStrAppend,
      Handler.JSONStrLen, Handler.JSONArrAppend, Handler.JSONArrLen, Handler.JSONArrPop,
      Handler.JSONArrIndex, Handler.JSONArrTrim, Handler.JSONArrInsert, Handler.JSONObjKeys,
      Handler.JSONObjLen, Handler.JSONDebug, Handler.JSONForget, Handler.JSONResp, h, hb]

/-- No operation writes a field of the Handler. -/
theorem invoke_r {T : Sig} {W : Type} (env : Imports T W) (s : State T W) (c : Call T) :
    (Handler.invoke env s c).2.r = s.r := by
  by_cases h : s.r.clientName = env.ClientInactive
  · rw [invoke_of_inactive env s c h]
  · cases hb : s.r.implementation with
    | none => rw [invoke_of_nil env s c h hb]
    | some b => rw [invoke_of_active env s b c h hb]

/-- The recording stub answers `reply c` to the call `c` and appends `c` to its log. -/
theorem recorder_invoke {T : Sig} (reply : Call T → Reply T) (c : Call T)
    (log : List (Call T)) :
    (recorder reply).invoke c log = (reply c, log ++ [c]) := by
  cases c <;> rfl

/-- Running a sequence extended by one use. -/
theorem run_snoc {T : Sig} {W : Type} (env : Imports T W) (acts : List (Action T))
    (a : Action T) (s : State T W) :
    run env (acts ++ [a]) s = Action.apply env (run env acts s) a := by
  simp [run, List.foldl_append]

/-- The fields of a Handler that started as `NewReJSONHandler()` are those of the state
the two-state machine of the specification is in after the same uses. -/
theorem run_handler {T : Sig} {W : Type} (env : Imports T W) (acts : List (Action T))
    (w : W) :
    (run env acts ⟨NewReJSONHandler env, w⟩).r =
      Phase.handler env (acts.foldl Phase.next Phase.inactive) := by
  induction acts using List.reverseRecOn with
  | nil => rfl
  | append_singleton acts a ih =>
    rw [run_snoc, List.foldl_append]
    cases a with
    | SetClientInactive => rfl
    | SetGoRedisClient conn => rfl
    | call c => simpa [Action.apply, invoke_r, Phase.next] using ih

/-- A backend given by `f` does `f c` on the call `c`. -/
theorem backendOf_invoke {T : Sig} {M : Type} (f : Call T → M → Reply T × M) (c : Call T) :
    (backendOf f).invoke c = f c := by
  cases c <;> rfl

/-! ## The properties of the specification -/

/-- C1: on a Handler whose name tag is `ClientInactive` every one of the twenty operations,
with every context and argument list, returns `(nil, ErrNoClientSet)` and leaves the whole
state as it was, so no backend method ran, even when the Handler still holds a backend;
this covers the Handler made by `NewReJSONHandler`, and a recording backend held by such a
Handler keeps its call log. -/
theorem inactive_handler_rejects {T : Sig} {W : Type} (env : Imports T W) (s : State T W)
    (c : Call T) (h : s.r.clientName = env.ClientInactive) :
    Handler.invoke env s c = (Outcome.ret none env.ErrNoClientSet, s) ∧
    (∀ w : W, Handler.invoke env ⟨NewReJSONHandler env, w⟩ c =
      (Outcome.ret none env.ErrNoClientSet, ⟨NewReJSONHandler env, w⟩)) ∧
    (∀ (envR : Imports T (List (Call T))) (reply : Call T → Reply T)
      (log : List (Call T)),
      (Handler.invoke envR ⟨⟨envR.ClientInactive, some (recorder reply)⟩, log⟩ c).2.world
        = log) := by
  refine ⟨invoke_of_inactive env s c h, fun w => invoke_of_inactive env _ c rfl, ?_⟩
  intro envR reply log
  rw [invoke_of_inactive envR _ c rfl]

/-- Witness of C1: JSONSet on an inactive Handler that still holds the recording stub. -/
theorem inactive_handler_rejects_witness :
    exampleStale.r.clientName = exampleEnv.ClientInactive ∧
    Handler.invoke exampleEnv exampleStale (Call.JSONSet () "k" "." (some "v") []) =
      (Outcome.ret none (some "no redis client is set"), exampleStale) :=
  ⟨rfl, (inactive_handler_rejects exampleEnv exampleStale
    (Call.JSONSet () "k" "." (some "v") []) rfl).1⟩

/-- C2: on a Handler whose name tag is not `ClientInactive` and whose backend is `b`, every
one of the twenty operations is exactly the same-named method of `b`, run once on the same
context and arguments: the pair `b` returns is returned as it is and the world is the one
`b` leaves. With the recording stub as backend the log grows by exactly the one call made,
with its arguments in order, and the answer is the stub's answer to that call. -/
theorem active_handler_forwards {T : Sig} {W : Type} (env : Imports T W) (s : State T W)
    (b : ReJSON T W) (c : Call T) (h : s.r.clientName ≠ env.ClientInactive)
    (hb : s.r.implementation = some b) :
    Handler.invoke env s c =
      (Outcome.ret (b.invoke c s.world).1.1 (b.invoke c s.world).1.2,
        ⟨s.r, (b.invoke c s.world).2⟩) ∧
    (∀ (envR : Imports T (List (Call T))) (reply : Call T → Reply T) (name : String)
      (log : List (Call T)), name ≠ envR.ClientInactive →
      Handler.invoke envR ⟨⟨name, some (recorder reply)⟩, log⟩ c =
        (Outcome.ret (reply c).1 (reply c).2,
          ⟨⟨name, some (recorder reply)⟩, log ++ [c]⟩)) := by
  refine ⟨invoke_of_active env s b c h hb, ?_⟩
  intro envR reply name log hname
  rw [invoke_of_active envR _ (recorder reply) c hname rfl, recorder_invoke]

/-- Witness of C2: `JSONArrPop(ctx, "k", ".arr", -1)` reaches the recording stub as the one
call JSONArrPop with key `"k"`, path `".arr"` and index `-1`. -/
theorem active_handler_forwards_witness :
    exampleActive.r.clientName ≠ exampleEnv.ClientInactive ∧
    exampleActive.r.implementation = some (recorder exampleReply) ∧
    Handler.invoke exampleEnv exampleActive (Call.JSONArrPop () "k" ".arr" (-1)) =
      (Outcome.ret (some "3") none,
        ⟨exampleActive.r, [Call.JSONArrPop () "k" ".arr" (-1)]⟩) :=
  ⟨by decide, rfl, (active_handler_forwards exampleEnv exampleActive (recorder exampleReply)
    (Call.JSONArrPop () "k" ".arr" (-1)) (by decide) rfl).1⟩

/-- C3: after `SetClientInactive`, whatever the Handler held before, every one of the twenty
operations returns `(nil, ErrNoClientSet)` and changes nothing; in particular after
`SetGoRedisClient(conn)` followed by `SetClientInactive`, for every `conn`. -/
theorem detached_handler_rejects {T : Sig} {W : Type} (env : Imports T W) (s : State T W)
    (c : Call T) :
    Handler.invoke env (Handler.SetClientInactive env s) c =
      (Outcome.ret none env.ErrNoClientSet, Handler.SetClientInactive env s) ∧
    (∀ conn : T.UniversalClient,
      Handler.invoke env
          (Handler.SetClientInactive env (Handler.SetGoRedisClient env s conn)) c =
        (Outcome.ret none env.ErrNoClientSet,
          Handler.SetClientInactive env (Handler.SetGoRedisClient env s conn))) :=
  ⟨invoke_of_inactive env _ c rfl, fun _ => invoke_of_inactive env _ c rfl⟩

/-- C4: `SetGoRedisClient(conn)` sets the name tag to `"goredis"` and the backend to
`NewGoRedisClient(conn)`, both together and whatever the Handler held, so that a later
attach overrides an earlier one; the world is untouched. When the constant
`ClientInactive` is not `"goredis"` the Handler is then active: its name tag differs from
`ClientInactive` and every operation is the same-named method of the new backend. -/
theorem attach_makes_active {T : Sig} {W : Type} (env : Imports T W) (s : State T W)
    (conn : T.UniversalClient) (hne : env.ClientInactive ≠ "goredis") :
    (Handler.SetGoRedisClient env s conn).r.clientName = "goredis" ∧
    (Handler.SetGoRedisClient env s conn).r.implementation
      = some (env.NewGoRedisClient conn) ∧
    (Handler.SetGoRedisClient env s conn).world = s.world ∧
    (∀ conn0 : T.UniversalClient,
      Handler.SetGoRedisClient env (Handler.SetGoRedisClient env s conn0) conn
        = Handler.SetGoRedisClient env s conn) ∧
    (Handler.SetGoRedisClient env s conn).r.clientName ≠ env.ClientInactive ∧
    (∀ c : Call T, Handler.invoke env (Handler.SetGoRedisClient env s conn) c =
      (Outcome.ret ((env.NewGoRedisClient conn).invoke c s.world).1.1
          ((env.NewGoRedisClient conn).invoke c s.world).1.2,
        ⟨⟨"goredis", some (env.NewGoRedisClient conn)⟩,
          ((env.NewGoRedisClient conn).invoke c s.world).2⟩)) := by
  have hact : (Handler.SetGoRedisClient env s conn).r.clientName ≠ env.ClientInactive :=
    fun h => hne h.symm
  exact ⟨rfl, rfl, rfl, fun _ => rfl, hact,
    fun c => invoke_of_active env _ (env.NewGoRedisClient conn) c hact rfl⟩

/-- Witness of C4: attaching connection 7 to a Handler that held something else. -/
theorem attach_makes_active_witness :
    exampleEnv.ClientInactive ≠ "goredis" ∧
    (Handler.SetGoRedisClient exampleEnv exampleStale 7).r.clientName
      ≠ exampleEnv.ClientInactive :=
  ⟨by decide, (attach_makes_active exampleEnv exampleStale 7 (by decide)).2.2.2.2.1⟩

/-- C5, as stated, fails: the zero value `Handler{}` has a nil backend, yet with
`ClientInactive = "inactive"` its empty name tag passes the guard of JSONSet, the method
is called on the nil backend and the call panics instead of returning
`(nil, ErrNoClientSet)`. Whatever the value of the constant `ClientInactive`, some name
tag with a nil backend ends in that panic. -/
theorem zero_value_handler_reaches_nil_backend :
    (zeroHandler : Handler exampleSig (List (Call exampleSig))).implementation = none ∧
    Handler.JSONSet exampleEnv ⟨zeroHandler, []⟩ () "k" "." (some "v") []
      = (Outcome.nilDeref, ⟨zeroHandler, []⟩) ∧
    (Handler.JSONSet exampleEnv ⟨zeroHandler, []⟩ () "k" "." (some "v") []).1
      ≠ Outcome.ret none exampleEnv.ErrNoClientSet ∧
    (∀ env : Imports exampleSig (List (Call exampleSig)), ∃ name : String,
      (Handler.JSONSet env ⟨⟨name, none⟩, []⟩ () "k" "." (some "v") []).1
        = Outcome.nilDeref) := by
  refine ⟨rfl, ?_, ?_, ?_⟩
  · simp [Handler.JSONSet, callImplementation, zeroHandler, exampleEnv]
  · simp [Handler.JSONSet, callImplementation, zeroHandler, exampleEnv]
  · intro env
    refine ⟨env.ClientInactive ++ "x", ?_⟩
    have hne : env.ClientInactive ++ "x" ≠ env.ClientInactive := by
      intro h
      have hl := congrArg String.length h
      simp [String.length_append] at hl
      exact absurd hl (by decide)
    simp [Handler.JSONSet, callImplementation, hne]

/-- C5, amended: a Handler whose backend is nil and whose name tag is `ClientInactive`,
and so every Handler with a nil backend that `NewReJSONHandler` and any sequence of
setters and operations produce, rejects every one of the twenty operations with
`(nil, ErrNoClientSet)`, changing nothing and never calling a method on the nil backend. -/
theorem nil_backend_inactive_rejects {T : Sig} {W : Type} (env : Imports T W)
    (s : State T W) (c : Call T) (hb : s.r.implementation = none)
    (ht : s.r.clientName = env.ClientInactive ∨
      ∃ (acts : List (Action T)) (w : W), s.r = reached env acts w) :
    Handler.invoke env s c = (Outcome.ret none env.ErrNoClientSet, s) := by
  apply invoke_of_inactive
  rcases ht with ht | ⟨acts, w, hr⟩
  · exact ht
  · rw [hr, reached, run_handler] at hb ⊢
    cases hp : acts.foldl Phase.next Phase.inactive with
    | inactive => rfl
    | active conn => rw [hp] at hb; simp [Phase.handler] at hb

/-- Witness of C5 amended: the Handler made by the constructor, reached by no use at all. -/
theorem nil_backend_inactive_rejects_witness :
    (NewReJSONHandler exampleEnv).implementation = none ∧
    Handler.invoke exampleEnv ⟨NewReJSONHandler exampleEnv, []⟩
        (Call.JSONGet () "k" "." []) =
      (Outcome.ret none (some "no redis client is set"),
        ⟨NewReJSONHandler exampleEnv, []⟩) :=
  ⟨rfl, nil_backend_inactive_rejects exampleEnv ⟨NewReJSONHandler exampleEnv, []⟩
    (Call.JSONGet () "k" "." []) rfl (Or.inr ⟨[], [], rfl⟩)⟩

/-- C6: on the Handler made by `NewReJSONHandler`, `JSONSet(ctx, "k", ".", obj)` returns a
nil result with the error `ErrNoClientSet`; after `SetGoRedisClient(conn)`, and when the
constant `ClientInactive` is not `"goredis"`, the same call returns exactly the pair the
JSONSet of the attached backend returns for these arguments, so `(ok, nil)` when the
backend answers `ok` without error. -/
theorem set_before_and_after_attach {T : Sig} {W : Type} (env : Imports T W) (w : W)
    (ctx : T.Context) (obj : Option T.Value) (conn : T.UniversalClient)
    (hne : env.ClientInactive ≠ "goredis") :
    Handler.JSONSet env ⟨NewReJSONHandler env, w⟩ ctx "k" "." obj [] =
      (Outcome.ret none env.ErrNoClientSet, ⟨NewReJSONHandler env, w⟩) ∧
    Handler.JSONSet env (Handler.SetGoRedisClient env ⟨NewReJSONHandler env, w⟩ conn)
        ctx "k" "." obj [] =
      (Outcome.ret ((env.NewGoRedisClient conn).JSONSet ctx "k" "." obj [] w).1.1
          ((env.NewGoRedisClient conn).JSONSet ctx "k" "." obj [] w).1.2,
        ⟨⟨"goredis", some (env.NewGoRedisClient conn)⟩,
          ((env.NewGoRedisClient conn).JSONSet ctx "k" "." obj [] w).2⟩) ∧
    (∀ ok : T.Value,
      ((env.NewGoRedisClient conn).JSONSet ctx "k" "." obj [] w).1 = (some ok, none) →
      (Handler.JSONSet env (Handler.SetGoRedisClient env ⟨NewReJSONHandler env, w⟩ conn)
        ctx "k" "." obj []).1 = Outcome.ret (some ok) none) := by
  have hact : ("goredis" : String) ≠ env.ClientInactive := fun h => hne h.symm
  refine ⟨by simp [Handler.JSONSet, NewReJSONHandler], ?_, ?_⟩
  · simp [Handler.JSONSet, Handler.SetGoRedisClient, callImplementation, hact]
  · intro ok hok
    simp [Handler.JSONSet, Handler.SetGoRedisClient, callImplementation, hact, hok]

/-- Witness of C6: after attaching the stub that answers `"OK"` to JSONSet, JSONSet
returns `"OK"` with a nil error. -/
theorem set_before_and_after_attach_witness :
    exampleEnv.ClientInactive ≠ "goredis" ∧
    (Handler.JSONSet exampleEnv
      (Handler.SetGoRedisClient exampleEnv ⟨NewReJSONHandler exampleEnv, []⟩ 1)
      () "k" "." (some "v") []).1 = Outcome.ret (some "OK") none :=
  ⟨by decide, (set_before_and_after_attach exampleEnv [] () (some "v") 1
    (by decide)).2.2 "OK" rfl⟩

/-- C8, as stated, fails: on an active Handler that holds the recording stub, JSONForget
and JSONDel with the same key and path return different pairs (the stub answers them
differently) and leave different logs (one JSONForget call, not one JSONDel call). -/
theorem forget_differs_from_del :
    exampleActive.r.clientName ≠ exampleEnv.ClientInactive ∧
    (Handler.JSONForget exampleEnv exampleActive () "k" ".").1
      ≠ (Handler.JSONDel exampleEnv exampleActive () "k" ".").1 ∧
    (Handler.JSONForget exampleEnv exampleActive () "k" ".").2.world
      = [Call.JSONForget () "k" "."] ∧
    (Handler.JSONDel exampleEnv exampleActive () "k" ".").2.world
      = [Call.JSONDel () "k" "."] ∧
    (Handler.JSONForget exampleEnv exampleActive () "k" ".").2.world
      ≠ (Handler.JSONDel exampleEnv exampleActive () "k" ".").2.world := by
  refine ⟨by decide, ?_, rfl, rfl, ?_⟩
  · simp [Handler.JSONForget, Handler.JSONDel, callImplementation, exampleActive,
      exampleEnv, recorder, exampleReply]
  · simp [Handler.JSONForget, Handler.JSONDel, callImplementation, exampleActive,
      exampleEnv, recorder]

/-- C8, amended: `Handler.JSONForget` forwards to the JSONForget of the backend, not to its
JSONDel. On a Handler that is inactive, or that holds a backend whose JSONForget and
JSONDel agree on this context, key and path in the current world, `Handler.JSONForget`
returns the same pair as `Handler.JSONDel` and leaves the same state. -/
theorem forget_eq_del_when_backend_agrees {T : Sig} {W : Type} (env : Imports T W)
    (s : State T W) (ctx : T.Context) (key path : String)
    (h : s.r.clientName = env.ClientInactive ∨
      ∃ b, s.r.implementation = some b ∧
        b.JSONForget ctx key path s.world = b.JSONDel ctx key path s.world) :
    Handler.JSONForget env s ctx key path = Handler.JSONDel env s ctx key path ∧
    (∀ b, s.r.clientName ≠ env.ClientInactive → s.r.implementation = some b →
      Handler.JSONForget env s ctx key path =
        (Outcome.ret (b.JSONForget ctx key path s.world).1.1
            (b.JSONForget ctx key path s.world).1.2,
          ⟨s.r, (b.JSONForget ctx key path s.world).2⟩)) := by
  constructor
  · rcases h with h | ⟨b, hb, hag⟩
    · simp [Handler.JSONForget, Handler.JSONDel, h]
    · simp [Handler.JSONForget, Handler.JSONDel, callImplementation, hb, hag]
  · intro b hne hb
    simp [Handler.JSONForget, callImplementation, hne, hb]

/-- Witness of C8 amended: an active Handler whose backend serves JSONForget by JSONDel. -/
theorem forget_eq_del_when_backend_agrees_witness :
    Handler.JSONForget exampleEnv ⟨⟨"goredis", some aliasBackend⟩, []⟩ () "k" "." =
      Handler.JSONDel exampleEnv ⟨⟨"goredis", some aliasBackend⟩, []⟩ () "k" "." :=
  (forget_eq_del_when_backend_agrees exampleEnv ⟨⟨"goredis", some aliasBackend⟩, []⟩
    () "k" "." (Or.inr ⟨aliasBackend, rfl, rfl⟩)).1

/-- C10: `SetClientInactive` is a total reset: from every state it gives the Handler the
name tag and the nil backend of the Handler made by `NewReJSONHandler`, and applying it
twice gives the same state as applying it once. -/
theorem detach_resets_and_is_idempotent {T : Sig} {W : Type} (env : Imports T W)
    (s : State T W) :
    (Handler.SetClientInactive env s).r = NewReJSONHandler env ∧
    (Handler.SetClientInactive env s).r.clientName = (NewReJSONHandler env).clientName ∧
    (Handler.SetClientInactive env s).r.implementation = none ∧
    (NewReJSONHandler env).implementation = none ∧
    Handler.SetClientInactive env (Handler.SetClientInactive env s)
      = Handler.SetClientInactive env s :=
  ⟨rfl, rfl, rfl, rfl, rfl⟩

end Rejson
